import Mathlib

/-!
Shallow embedding of the rate-limiting core of the `@zeitar/throttle`
TypeScript library, together with theorems checking its specification.

Modelling conventions, used uniformly below:
* every TypeScript `number` (times in seconds, token counts, hit counts)
  is modelled as a rational number `ℚ`, with `Math.floor` / `Math.ceil`
  mapped to `Int.floor` / `Int.ceil` (cast back to `ℚ`);
* a JavaScript `Date` is modelled by its epoch value in milliseconds, so
  `new Date(x * 1000)` for a time `x` in seconds becomes the rational
  `x * 1000`;
* storage for a single key is modelled by an `Option` of the state type:
  `none` for an absent entry, `some s` for a stored state.  An operation
  returns, besides its result, the `save` it performed (`none` when the
  source never calls `storage.save` on that path);
* `InMemoryStorage.fetch` treats an entry whose expiration has passed as
  absent (and lazily deletes it); the JS truthiness test
  `expirationTime ? expirationTime * 1000 : null` makes an expiration
  time of exactly `0` mean "never expires", which is reproduced here;
* a thrown exception is modelled as an error value of the operation's
  result type; the operation performs no save on a throwing path.
-/

/-! ## Rate (src/policy/Rate.ts) -/

/-- Refill-rate configuration: `amount` tokens per `intervalInSeconds`. -/
structure Rate where
  intervalInSeconds : ℚ
  amount : ℚ
  deriving DecidableEq, Repr

/-- Constructor guards of `Rate`: interval and amount are at least 1. -/
def Rate.Valid (r : Rate) : Prop :=
  1 ≤ r.intervalInSeconds ∧ 1 ≤ r.amount

/-- `Rate.calculateTimeForTokens`: `Math.ceil(tokens * interval / amount)`. -/
def Rate.calculateTimeForTokens (r : Rate) (tokens : ℚ) : ℚ :=
  (⌈tokens * r.intervalInSeconds / r.amount⌉ : ℚ)

/-- `Rate.calculateNewTokensDuringInterval`:
`Math.floor(duration * amount / interval)`. -/
def Rate.calculateNewTokensDuringInterval (r : Rate) (durationInSeconds : ℚ) : ℚ :=
  (⌊durationInSeconds * r.amount / r.intervalInSeconds⌋ : ℚ)

/-! ## Result types (src/RateLimit.ts, src/Reservation.ts) -/

/-- Outcome of a rate-limiting operation.  `retryAfter` is the epoch value
in milliseconds of the `Date` the source constructs. -/
structure RateLimit where
  availableTokens : ℚ
  retryAfter : ℚ
  accepted : Bool
  limit : ℚ
  deriving DecidableEq, Repr

/-- A token reservation; `timeToAct` is in epoch milliseconds, exactly as
the source's `new Reservation(timeToAct * 1000, rateLimit)`. -/
structure Reservation where
  timeToAct : ℚ
  rateLimit : RateLimit
  deriving DecidableEq, Repr

/-- Result of a `reserve` call: a reservation, or one of the exceptions
the engines throw (`Error` on a burst-size/limit violation,
`MaxWaitDurationExceeded` carrying a rejected `RateLimit`,
`ReserveNotSupportedError` from `CompoundLimiter`). -/
inductive ReserveResult where
  | ok : Reservation → ReserveResult
  | burstError : ReserveResult
  | maxWaitError : RateLimit → ReserveResult
  | reserveNotSupported : ReserveResult
  deriving DecidableEq, Repr

/-! ## TokenBucket state (src/policy/TokenBucket.ts) -/

/-- Serializable token-bucket state (the `id` field is dropped: a single
key is modelled). -/
structure TokenBucket where
  tokens : ℚ
  burstSize : ℚ
  timer : ℚ
  rate : Rate
  deriving DecidableEq, Repr

/-- `TokenBucket.getExpirationTime`:
`Math.ceil(timer + rate.calculateTimeForTokens(burstSize))`. -/
def TokenBucket.getExpirationTime (b : TokenBucket) : ℚ :=
  (⌈b.timer + b.rate.calculateTimeForTokens b.burstSize⌉ : ℚ)

/-- `TokenBucket.getAvailableTokens`:
`min(burstSize, tokens + rate.calculateNewTokensDuringInterval(now - timer))`. -/
def TokenBucket.getAvailableTokens (b : TokenBucket) (now : ℚ) : ℚ :=
  min b.burstSize (b.tokens + b.rate.calculateNewTokensDuringInterval (now - b.timer))

/-! ## TokenBucketLimiter (src/policy/TokenBucketLimiter.ts) -/

/-- Configuration of a `TokenBucketLimiter` (id/storage/lock abstracted:
the limiter operates on a single key whose stored state is passed in). -/
structure TBConfig where
  burstSize : ℚ
  rate : Rate
  deriving DecidableEq, Repr

/-- `InMemoryStorage.fetch` for a token-bucket key at wall-clock `now`
(seconds): an entry whose expiration (stored in ms) has passed is deleted
and reported absent; a zero expiration is JS-falsy and means no expiry. -/
def TBConfig.fetchBucket (stored : Option TokenBucket) (now : ℚ) : Option TokenBucket :=
  match stored with
  | none => none
  | some b =>
    let expirationTime := b.getExpirationTime
    if expirationTime = 0 then some b
    else if now * 1000 ≥ expirationTime * 1000 then none
    else some b

/-- `TokenBucketLimiter.getOrCreateBucket`: the fetched state, or a fresh
bucket `new TokenBucket(id, burstSize, rate)` (full tokens, timer = now). -/
def TBConfig.getOrCreateBucket (cfg : TBConfig) (stored : Option TokenBucket) (now : ℚ) :
    TokenBucket :=
  match TBConfig.fetchBucket stored now with
  | some b => b
  | none => { tokens := cfg.burstSize, burstSize := cfg.burstSize, timer := now, rate := cfg.rate }

/-- The `availableTokens` local computed at the top of both `consume` and
`reserve`: `bucket.getAvailableTokens(now)` on the fetched-or-fresh bucket. -/
def TBConfig.availableNow (cfg : TBConfig) (stored : Option TokenBucket) (now : ℚ) : ℚ :=
  (cfg.getOrCreateBucket stored now).getAvailableTokens now

/-- Result of a `consume` call: the returned `RateLimit` and the state
passed to `storage.save`, if any. -/
structure TBConsumeOut where
  rateLimit : RateLimit
  saved : Option TokenBucket
  deriving DecidableEq, Repr

/-- `TokenBucketLimiter.consume(tokens)` at time `now` against the stored
state for the limiter's key.  Mirrors the source: refresh the bucket to
`(availableTokens, now)`, then either deduct and save, or return a
rejection without saving. -/
def TBConfig.consume (cfg : TBConfig) (stored : Option TokenBucket) (now tokens : ℚ) :
    TBConsumeOut :=
  let bucket := cfg.getOrCreateBucket stored now
  let availableTokens := bucket.getAvailableTokens now
  let bucket := { bucket with tokens := availableTokens, timer := now }
  if availableTokens ≥ tokens then
    { rateLimit := { availableTokens := availableTokens - tokens, retryAfter := now * 1000,
                     accepted := true, limit := cfg.burstSize },
      saved := some { bucket with tokens := availableTokens - tokens } }
  else
    let tokensNeeded := tokens - availableTokens
    let waitTime := cfg.rate.calculateTimeForTokens tokensNeeded
    { rateLimit := { availableTokens := availableTokens, retryAfter := (now + waitTime) * 1000,
                     accepted := false, limit := cfg.burstSize },
      saved := none }

/-- Result of a `reserve` call: the reservation or thrown error, and the
state passed to `storage.save`, if any. -/
structure TBReserveOut where
  result : ReserveResult
  saved : Option TokenBucket
  deriving DecidableEq, Repr

/-- The `maxTime !== null && waitTime > maxTime` guard of `reserve`. -/
def maxWaitHit (maxTime : Option ℚ) (waitTime : ℚ) : Bool :=
  match maxTime with
  | none => false
  | some mt => decide (waitTime > mt)

/-- Common tail of every engine's `reserve`: the max-wait check followed by
saving the updated state and building the accepted reservation.  `st` is the
state that would be saved. -/
def finishReserve {σ : Type} (limit now availableTokens tokens waitTime timeToAct : ℚ)
    (st : σ) (maxTime : Option ℚ) : ReserveResult × Option σ :=
  if maxWaitHit maxTime waitTime then
    (ReserveResult.maxWaitError
       { availableTokens := availableTokens, retryAfter := (now + waitTime) * 1000,
         accepted := false, limit := limit },
     none)
  else
    (ReserveResult.ok
       { timeToAct := timeToAct * 1000,
         rateLimit := { availableTokens := max 0 (availableTokens - tokens),
                        retryAfter := timeToAct * 1000, accepted := true, limit := limit } },
     some st)

/-- The `waitTime` that `TokenBucketLimiter.reserve` computes: `0` when
enough tokens are available, else `rate.calculateTimeForTokens(needed)`. -/
def TBConfig.reserveWait (cfg : TBConfig) (stored : Option TokenBucket) (now tokens : ℚ) : ℚ :=
  let availableTokens := cfg.availableNow stored now
  if availableTokens ≥ tokens then 0
  else cfg.rate.calculateTimeForTokens (tokens - availableTokens)

/-- `TokenBucketLimiter.reserve(tokens, maxTime)` at time `now`.  Mirrors
the source: refresh the bucket, throw on `tokens > burstSize`, compute the
wait and pre-commit the shortfall (`tokens := 0`, `timer := timeToAct`)
when insufficient, then apply the max-wait check and save. -/
def TBConfig.reserve (cfg : TBConfig) (stored : Option TokenBucket) (now tokens : ℚ)
    (maxTime : Option ℚ) : TBReserveOut :=
  let bucket := cfg.getOrCreateBucket stored now
  let availableTokens := bucket.getAvailableTokens now
  let bucket := { bucket with tokens := availableTokens, timer := now }
  if tokens > cfg.burstSize then
    { result := ReserveResult.burstError, saved := none }
  else if availableTokens ≥ tokens then
    let out := finishReserve cfg.burstSize now availableTokens tokens 0 now
      { bucket with tokens := availableTokens - tokens } maxTime
    { result := out.1, saved := out.2 }
  else
    let waitTime := cfg.rate.calculateTimeForTokens (tokens - availableTokens)
    let timeToAct := now + waitTime
    let out := finishReserve cfg.burstSize now availableTokens tokens waitTime timeToAct
      { bucket with tokens := 0, timer := timeToAct } maxTime
    { result := out.1, saved := out.2 }

/-! ## Window state (src/policy/Window.ts) and FixedWindowLimiter
(src/policy/FixedWindowLimiter.ts) -/

/-- Serializable fixed-window state (the `id` field is dropped). -/
structure Window where
  hitCount : ℚ
  intervalInSeconds : ℚ
  maxSize : ℚ
  timer : ℚ
  deriving DecidableEq, Repr

/-- `Window.getExpirationTime`: `Math.ceil(timer + intervalInSeconds)`. -/
def Window.getExpirationTime (w : Window) : ℚ :=
  (⌈w.timer + w.intervalInSeconds⌉ : ℚ)

/-- `Window.add(hits, now)`: reset to a freshly aligned window when `now`
has crossed the boundary, else increment the hit count. -/
def Window.add (w : Window) (hits now : ℚ) : Window :=
  if now ≥ w.timer + w.intervalInSeconds then
    { w with hitCount := hits,
             timer := (⌊now / w.intervalInSeconds⌋ : ℚ) * w.intervalInSeconds }
  else
    { w with hitCount := w.hitCount + hits }

/-- `Window.getAvailableTokens(now)`: the full `maxSize` once the window
has rolled over, else `max(0, maxSize - hitCount)`. -/
def Window.getAvailableTokens (w : Window) (now : ℚ) : ℚ :=
  if now ≥ w.timer + w.intervalInSeconds then w.maxSize
  else max 0 (w.maxSize - w.hitCount)

/-- `Window.calculateTimeForTokens(tokens, now)`: `0` when available, else
wait until the window boundary `timer + intervalInSeconds`. -/
def Window.calculateTimeForTokens (w : Window) (tokens now : ℚ) : ℚ :=
  if w.getAvailableTokens now ≥ tokens then 0
  else (w.timer + w.intervalInSeconds) - now

/-- Configuration of a `FixedWindowLimiter`. -/
structure FWConfig where
  limit : ℚ
  intervalInSeconds : ℚ
  deriving DecidableEq, Repr

/-- `InMemoryStorage.fetch` for a fixed-window key (see `TBConfig.fetchBucket`
for the expiration convention). -/
def FWConfig.fetchWindow (stored : Option Window) (now : ℚ) : Option Window :=
  match stored with
  | none => none
  | some w =>
    let expirationTime := w.getExpirationTime
    if expirationTime = 0 then some w
    else if now * 1000 ≥ expirationTime * 1000 then none
    else some w

/-- `FixedWindowLimiter.getOrCreateWindow`: the fetched state, or a fresh
window anchored at `floor(now / interval) * interval` with zero hits. -/
def FWConfig.getOrCreateWindow (cfg : FWConfig) (stored : Option Window) (now : ℚ) : Window :=
  match FWConfig.fetchWindow stored now with
  | some w => w
  | none =>
    { hitCount := 0, intervalInSeconds := cfg.intervalInSeconds, maxSize := cfg.limit,
      timer := (⌊now / cfg.intervalInSeconds⌋ : ℚ) * cfg.intervalInSeconds }

/-- Result of a fixed-window `consume`. -/
structure FWConsumeOut where
  rateLimit : RateLimit
  saved : Option Window
  deriving DecidableEq, Repr

/-- `FixedWindowLimiter.consume(tokens)` at time `now`. -/
def FWConfig.consume (cfg : FWConfig) (stored : Option Window) (now tokens : ℚ) :
    FWConsumeOut :=
  let window := cfg.getOrCreateWindow stored now
  let availableTokens := window.getAvailableTokens now
  if availableTokens ≥ tokens then
    { rateLimit := { availableTokens := availableTokens - tokens, retryAfter := now * 1000,
                     accepted := true, limit := cfg.limit },
      saved := some (window.add tokens now) }
  else
    let waitTime := window.calculateTimeForTokens tokens now
    { rateLimit := { availableTokens := availableTokens, retryAfter := (now + waitTime) * 1000,
                     accepted := false, limit := cfg.limit },
      saved := none }

/-- Result of a fixed-window `reserve`. -/
structure FWReserveOut where
  result : ReserveResult
  saved : Option Window
  deriving DecidableEq, Repr

/-- The `waitTime` that `FixedWindowLimiter.reserve` computes. -/
def FWConfig.reserveWait (cfg : FWConfig) (stored : Option Window) (now tokens : ℚ) : ℚ :=
  let window := cfg.getOrCreateWindow stored now
  if window.getAvailableTokens now ≥ tokens then 0
  else (window.timer + cfg.intervalInSeconds) - now

/-- `FixedWindowLimiter.reserve(tokens, maxTime)` at time `now`. -/
def FWConfig.reserve (cfg : FWConfig) (stored : Option Window) (now tokens : ℚ)
    (maxTime : Option ℚ) : FWReserveOut :=
  let window := cfg.getOrCreateWindow stored now
  let availableTokens := window.getAvailableTokens now
  if tokens > cfg.limit then
    { result := ReserveResult.burstError, saved := none }
  else if availableTokens ≥ tokens then
    let out := finishReserve cfg.limit now availableTokens tokens 0 now
      (window.add tokens now) maxTime
    { result := out.1, saved := out.2 }
  else
    let windowEnd := window.timer + cfg.intervalInSeconds
    let waitTime := windowEnd - now
    let out := finishReserve cfg.limit now availableTokens tokens waitTime windowEnd
      window maxTime
    { result := out.1, saved := out.2 }

/-! ## SlidingWindow state (src/policy/SlidingWindow.ts) and
SlidingWindowLimiter (src/policy/SlidingWindowLimiter.ts) -/

/-- Serializable sliding-window state (the `id` field is dropped). -/
structure SlidingWindow where
  hitCount : ℚ
  hitCountForLastWindow : ℚ
  windowEndAt : ℚ
  intervalInSeconds : ℚ
  deriving DecidableEq, Repr

/-- `SlidingWindow.getExpirationTime`:
`Math.ceil(windowEndAt + intervalInSeconds)`. -/
def SlidingWindow.getExpirationTime (w : SlidingWindow) : ℚ :=
  (⌈w.windowEndAt + w.intervalInSeconds⌉ : ℚ)

/-- `SlidingWindow.isExpired(now)`: `now ≥ windowEndAt + intervalInSeconds`. -/
def SlidingWindow.isExpired (w : SlidingWindow) (now : ℚ) : Bool :=
  decide (now ≥ w.windowEndAt + w.intervalInSeconds)

/-- `SlidingWindow.add(hits)`: increment the current window's hit count. -/
def SlidingWindow.add (w : SlidingWindow) (hits : ℚ) : SlidingWindow :=
  { w with hitCount := w.hitCount + hits }

/-- `SlidingWindow.getHitCount(now)`: past the window end, the raw current
count; inside the window, the weighted formula
`floor(previous * (1 - percentIntoWindow) + current)`. -/
def SlidingWindow.getHitCount (w : SlidingWindow) (now : ℚ) : ℚ :=
  if now ≥ w.windowEndAt then w.hitCount
  else
    let windowStartAt := w.windowEndAt - w.intervalInSeconds
    let timeIntoWindow := now - windowStartAt
    let percentIntoWindow := timeIntoWindow / w.intervalInSeconds
    (⌊w.hitCountForLastWindow * (1 - percentIntoWindow) + w.hitCount⌋ : ℚ)

/-- `SlidingWindow.calculateTimeForTokens(maxSize, tokens, now)`: `0` when
available, else wait (conservatively) until the current window's end. -/
def SlidingWindow.calculateTimeForTokens (w : SlidingWindow) (maxSize tokens now : ℚ) : ℚ :=
  let currentCount := w.getHitCount now
  let available := max 0 (maxSize - currentCount)
  if available ≥ tokens then 0
  else w.windowEndAt - now

/-- `SlidingWindow.createFromPreviousWindow`: fresh hit count, previous
current hits carried over, window end advanced to `now + interval`. -/
def SlidingWindow.createFromPreviousWindow (intervalInSeconds : ℚ)
    (previousWindow : SlidingWindow) (now : ℚ) : SlidingWindow :=
  { hitCount := 0, hitCountForLastWindow := previousWindow.hitCount,
    windowEndAt := now + intervalInSeconds, intervalInSeconds := intervalInSeconds }

/-- Configuration of a `SlidingWindowLimiter`. -/
structure SWConfig where
  limit : ℚ
  intervalInSeconds : ℚ
  deriving DecidableEq, Repr

/-- `InMemoryStorage.fetch` for a sliding-window key (see
`TBConfig.fetchBucket` for the expiration convention). -/
def SWConfig.fetchWindow (stored : Option SlidingWindow) (now : ℚ) : Option SlidingWindow :=
  match stored with
  | none => none
  | some w =>
    let expirationTime := w.getExpirationTime
    if expirationTime = 0 then some w
    else if now * 1000 ≥ expirationTime * 1000 then none
    else some w

/-- `SlidingWindowLimiter.getOrCreateWindow`: the fetched state, or
`new SlidingWindow(id, interval)` (zero hits, window ending at
`now + interval`). -/
def SWConfig.getOrCreateWindow (cfg : SWConfig) (stored : Option SlidingWindow) (now : ℚ) :
    SlidingWindow :=
  match SWConfig.fetchWindow stored now with
  | some w => w
  | none =>
    { hitCount := 0, hitCountForLastWindow := 0, windowEndAt := now + cfg.intervalInSeconds,
      intervalInSeconds := cfg.intervalInSeconds }

/-- `SlidingWindowLimiter.maybeTransitionWindow`: keep the window while
`now < windowEndAt`; replace a fully expired window with a fresh one; else
slide it, carrying the current hits into `hitCountForLastWindow`. -/
def SWConfig.maybeTransitionWindow (cfg : SWConfig) (window : SlidingWindow) (now : ℚ) :
    SlidingWindow :=
  if now < window.windowEndAt then window
  else if window.isExpired now then
    { hitCount := 0, hitCountForLastWindow := 0, windowEndAt := now + cfg.intervalInSeconds,
      intervalInSeconds := cfg.intervalInSeconds }
  else
    SlidingWindow.createFromPreviousWindow cfg.intervalInSeconds window now

/-- The transitioned window both `consume` and `reserve` operate on. -/
def SWConfig.updatedWindow (cfg : SWConfig) (stored : Option SlidingWindow) (now : ℚ) :
    SlidingWindow :=
  cfg.maybeTransitionWindow (cfg.getOrCreateWindow stored now) now

/-- The `availableTokens` local of the sliding-window engine:
`max(0, limit - updatedWindow.getHitCount(now))`. -/
def SWConfig.availableNow (cfg : SWConfig) (stored : Option SlidingWindow) (now : ℚ) : ℚ :=
  max 0 (cfg.limit - (cfg.updatedWindow stored now).getHitCount now)

/-- Result of a sliding-window `consume`. -/
structure SWConsumeOut where
  rateLimit : RateLimit
  saved : Option SlidingWindow
  deriving DecidableEq, Repr

/-- `SlidingWindowLimiter.consume(tokens)` at time `now`. -/
def SWConfig.consume (cfg : SWConfig) (stored : Option SlidingWindow) (now tokens : ℚ) :
    SWConsumeOut :=
  let updatedWindow := cfg.updatedWindow stored now
  let availableTokens := max 0 (cfg.limit - updatedWindow.getHitCount now)
  if availableTokens ≥ tokens then
    { rateLimit := { availableTokens := availableTokens - tokens, retryAfter := now * 1000,
                     accepted := true, limit := cfg.limit },
      saved := some (updatedWindow.add tokens) }
  else
    let waitTime := updatedWindow.calculateTimeForTokens cfg.limit tokens now
    { rateLimit := { availableTokens := availableTokens, retryAfter := (now + waitTime) * 1000,
                     accepted := false, limit := cfg.limit },
      saved := none }

/-- Result of a sliding-window `reserve`. -/
structure SWReserveOut where
  result : ReserveResult
  saved : Option SlidingWindow
  deriving DecidableEq, Repr

/-- The `waitTime` that `SlidingWindowLimiter.reserve` computes. -/
def SWConfig.reserveWait (cfg : SWConfig) (stored : Option SlidingWindow) (now tokens : ℚ) : ℚ :=
  if cfg.availableNow stored now ≥ tokens then 0
  else (cfg.updatedWindow stored now).calculateTimeForTokens cfg.limit tokens now

/-- `SlidingWindowLimiter.reserve(tokens, maxTime)` at time `now`. -/
def SWConfig.reserve (cfg : SWConfig) (stored : Option SlidingWindow) (now tokens : ℚ)
    (maxTime : Option ℚ) : SWReserveOut :=
  let updatedWindow := cfg.updatedWindow stored now
  let availableTokens := max 0 (cfg.limit - updatedWindow.getHitCount now)
  if tokens > cfg.limit then
    { result := ReserveResult.burstError, saved := none }
  else if availableTokens ≥ tokens then
    let out := finishReserve cfg.limit now availableTokens tokens 0 now
      (updatedWindow.add tokens) maxTime
    { result := out.1, saved := out.2 }
  else
    let waitTime := updatedWindow.calculateTimeForTokens cfg.limit tokens now
    let out := finishReserve cfg.limit now availableTokens tokens waitTime (now + waitTime)
      updatedWindow maxTime
    { result := out.1, saved := out.2 }

/-! ## CompoundLimiter (src/CompoundLimiter.ts)

An underlying engine is modelled abstractly, as the source's
`LimiterInterface` is: a function from the requested token count and the
engine's own persisted state to the produced `RateLimit` and the engine's
state after the call.  The compound limiter holds each engine paired with
its current state. -/

/-- One pass of the most-restrictive reduction loop in
`CompoundLimiter.consume`: replace the accumulator when the new result is
rejected while the accumulator is accepted, when both are rejected and the
new result has the later `retryAfter`, or when both are accepted and the
new result has fewer remaining tokens. -/
def mostRestrictiveStep (mostRestrictive result : RateLimit) : RateLimit :=
  if (result.accepted = false ∧ mostRestrictive.accepted = true)
      ∨ (result.accepted = false ∧ mostRestrictive.accepted = false
          ∧ result.retryAfter > mostRestrictive.retryAfter)
      ∨ (result.accepted = true ∧ mostRestrictive.accepted = true
          ∧ result.availableTokens < mostRestrictive.availableTokens)
  then result else mostRestrictive

/-- The `RateLimit`s obtained by fanning `consume(tokens)` out to every
underlying engine (`this.limiters.map(limiter => limiter.consume(tokens))`). -/
def CompoundLimiter.results {α : Type} (limiters : List ((ℚ → α → RateLimit × α) × α))
    (tokens : ℚ) : List RateLimit :=
  limiters.map fun p => (p.1 tokens p.2).1

/-- The reduction loop of `CompoundLimiter.consume`: start from
`results[0]` and fold `mostRestrictiveStep` over `results.slice(1)`
(`none` for an empty engine list, which the constructor forbids). -/
def CompoundLimiter.reduceResults : List RateLimit → Option RateLimit
  | [] => none
  | h :: t => some (t.foldl mostRestrictiveStep h)

/-- `CompoundLimiter.consume(tokens)`: fan out to every engine, then reduce
the results with `mostRestrictiveStep`.  The second component is each
engine's state after its own `consume` — nothing is rolled back when the
reduced outcome is a rejection. -/
def CompoundLimiter.consume {α : Type} (limiters : List ((ℚ → α → RateLimit × α) × α))
    (tokens : ℚ) : Option RateLimit × List α :=
  (CompoundLimiter.reduceResults (CompoundLimiter.results limiters tokens),
   limiters.map fun p => (p.1 tokens p.2).2)

/-- `CompoundLimiter.reserve`: throws `ReserveNotSupportedError`
unconditionally, before touching any underlying engine, so every engine's
state is returned unchanged. -/
def CompoundLimiter.reserve {α : Type} (limiters : List ((ℚ → α → RateLimit × α) × α))
    (_tokens : ℚ) (_maxTime : Option ℚ) : ReserveResult × List α :=
  (ReserveResult.reserveNotSupported, limiters.map Prod.snd)

/-! ## Operation sequences against a single token-bucket key

Used for the whole-lifecycle invariant claims: a trace of `consume`,
`reserve` and `reset` calls, each tagged with the wall-clock time at which
it runs, executed against the storage cell of one key. -/

/-- One operation of a token-bucket trace. -/
inductive TBOp where
  | consumeOp (now tokens : ℚ)
  | reserveOp (now tokens : ℚ) (maxTime : Option ℚ)
  | resetOp
  deriving DecidableEq, Repr

/-- Argument validity for a trace operation: a consume/reserve requests at
least one token. -/
def TBOp.Valid : TBOp → Prop
  | TBOp.consumeOp _ tokens => 1 ≤ tokens
  | TBOp.reserveOp _ tokens _ => 1 ≤ tokens
  | TBOp.resetOp => True

/-- The storage content after an operation that fetched (`fetchBucket`
lazily deletes an expired entry) and then possibly saved. -/
def TBConfig.afterSave (stored : Option TokenBucket) (now : ℚ)
    (saved : Option TokenBucket) : Option TokenBucket :=
  match saved with
  | some b => some b
  | none => TBConfig.fetchBucket stored now

/-- The `RateLimit`s observable from a `reserve` outcome: the one embedded
in a returned `Reservation`, or the one carried by a thrown
`MaxWaitDurationExceeded` (a plain thrown `Error` carries none). -/
def reserveOutcomes : ReserveResult → List RateLimit
  | ReserveResult.ok r => [r.rateLimit]
  | ReserveResult.maxWaitError rl => [rl]
  | ReserveResult.burstError => []
  | ReserveResult.reserveNotSupported => []

/-- Run one trace operation: the storage cell afterwards, and the
`RateLimit`s the operation produced (returned, embedded in a returned
`Reservation`, or carried by a thrown `MaxWaitDurationExceeded`). -/
def TBConfig.step (cfg : TBConfig) (stored : Option TokenBucket) :
    TBOp → Option TokenBucket × List RateLimit
  | TBOp.consumeOp now tokens =>
    let out := cfg.consume stored now tokens
    (TBConfig.afterSave stored now out.saved, [out.rateLimit])
  | TBOp.reserveOp now tokens maxTime =>
    let out := cfg.reserve stored now tokens maxTime
    (TBConfig.afterSave stored now out.saved, reserveOutcomes out.result)
  | TBOp.resetOp => (none, [])

/-- Run a trace of operations, collecting every produced `RateLimit`. -/
def TBConfig.runOps (cfg : TBConfig) :
    Option TokenBucket → List TBOp → Option TokenBucket × List RateLimit
  | stored, [] => (stored, [])
  | stored, op :: rest =>
    let out := cfg.step stored op
    let outs := cfg.runOps out.1 rest
    (outs.1, out.2 ++ outs.2)

/-- Storage content for a fixed-window key after fetch and optional save. -/
def FWConfig.afterSave (stored : Option Window) (now : ℚ) (saved : Option Window) :
    Option Window :=
  match saved with
  | some w => some w
  | none => FWConfig.fetchWindow stored now

/-- Run a sequence of fixed-window `consume` calls, given as
`(now, tokens)` pairs, collecting the returned `RateLimit`s. -/
def FWConfig.runConsumes (cfg : FWConfig) :
    Option Window → List (ℚ × ℚ) → Option Window × List RateLimit
  | stored, [] => (stored, [])
  | stored, (now, tokens) :: rest =>
    let out := cfg.consume stored now tokens
    let outs := cfg.runConsumes (FWConfig.afterSave stored now out.saved) rest
    (outs.1, out.rateLimit :: outs.2)

/-! ## Whole-trace invariants for the token bucket -/

/-- Storage invariant maintained across a trace: a stored bucket carries
the limiter's configured burst size. -/
def TBConfig.StoredInv (cfg : TBConfig) : Option TokenBucket → Prop
  | none => True
  | some b => b.burstSize = cfg.burstSize

/-! ## Concrete instances used in counterexamples and witnesses -/

/-- One token per second. -/
def exRate : Rate := { intervalInSeconds := 1, amount := 1 }

/-- A token-bucket limiter with capacity 10 refilling one token per second. -/
def tbCfgEx : TBConfig := { burstSize := 10, rate := exRate }

/-- An exhausted bucket for `tbCfgEx`, last updated at t = 0. -/
def tbBucketEmpty : TokenBucket :=
  { tokens := 0, burstSize := 10, timer := 0, rate := exRate }

/-- Trace for the `remaining` lower-bound counterexample: drain the bucket,
reserve five tokens (pre-committing `timer` five seconds into the future),
then consume again before the reservation's time-to-act. -/
def tbOpsEx : List TBOp :=
  [TBOp.consumeOp 0 10, TBOp.reserveOp 0 5 none, TBOp.consumeOp 0 1]

/-- The fixed-window limiter of the specification scenario:
limit 5 per 10-second window. -/
def fwCfgEx : FWConfig := { limit := 5, intervalInSeconds := 10 }

/-- The seven `(now, tokens)` consume calls of the scenario. -/
def fwCallsEx : List (ℚ × ℚ) :=
  [(0, 1), (0, 1), (0, 1), (0, 1), (0, 1), (0, 1), (10, 1)]

/-- A full fixed window for `fwCfgEx`, anchored at t = 0. -/
def fwWindowFull : Window :=
  { hitCount := 5, intervalInSeconds := 10, maxSize := 5, timer := 0 }

/-- A sliding-window limiter: limit 5 per 10-second window. -/
def swCfgEx : SWConfig := { limit := 5, intervalInSeconds := 10 }

/-- A full current window for `swCfgEx`, ending at t = 10. -/
def swWindowFull : SlidingWindow :=
  { hitCount := 5, hitCountForLastWindow := 0, windowEndAt := 10, intervalInSeconds := 10 }

/-- A sliding window with three hits in the previous window and none yet in
the current one, which ends at t = 10. -/
def swWindowPrev : SlidingWindow :=
  { hitCount := 0, hitCountForLastWindow := 3, windowEndAt := 10, intervalInSeconds := 10 }

/-- An engine that always returns a fixed outcome and keeps its (unit)
state; used to instantiate the compound limiter concretely. -/
def engineConst (rl : RateLimit) : ℚ → Unit → RateLimit × Unit :=
  fun _ _ => (rl, ())

/-- A concrete compound limiter over two always-accepting engines with
remaining 5 and 20. -/
def compoundLimitersEx : List ((ℚ → Unit → RateLimit × Unit) × Unit) :=
  [(engineConst { availableTokens := 5, retryAfter := 0, accepted := true, limit := 10 }, ()),
   (engineConst { availableTokens := 20, retryAfter := 0, accepted := true, limit := 30 }, ())]

lemma TBConfig.getOrCreateBucket_burstSize (cfg : TBConfig) (stored : Option TokenBucket)
    (now : ℚ) (hinv : cfg.StoredInv stored) :
    (cfg.getOrCreateBucket stored now).burstSize = cfg.burstSize := by
  cases stored with
  | none => rfl
  | some b =>
    simp only [TBConfig.getOrCreateBucket, TBConfig.fetchBucket]
    split_ifs <;> simp_all [TBConfig.StoredInv]

lemma TBConfig.availableNow_le (cfg : TBConfig) (stored : Option TokenBucket) (now : ℚ)
    (hinv : cfg.StoredInv stored) :
    cfg.availableNow stored now ≤ cfg.burstSize := by
  rw [TBConfig.availableNow, TokenBucket.getAvailableTokens,
    cfg.getOrCreateBucket_burstSize stored now hinv]
  exact min_le_left _ _

/-- Claim C1, counterexample: with capacity 10, a one-token-per-second rate,
an exhausted stored bucket `(tokens = 0, timer = 0)` and `consume(1)` at
`now = 0`, the call is rejected yet performs no `storage.save` at all, so it
does not persist `(0, now)` as the claim states. -/
theorem tokenBucket_consume_reject_persists_cex :
    (tbCfgEx.consume (some tbBucketEmpty) 0 1).rateLimit.accepted = false ∧
    (tbCfgEx.consume (some tbBucketEmpty) 0 1).saved = none := by
  norm_num [TBConfig.consume, TBConfig.getOrCreateBucket, TBConfig.fetchBucket,
    TokenBucket.getAvailableTokens, TokenBucket.getExpirationTime,
    Rate.calculateTimeForTokens, Rate.calculateNewTokensDuringInterval,
    tbCfgEx, tbBucketEmpty, exRate]

/-- Claim C1, amended: for every token-bucket limiter (capacity ≥ 1, valid
rate) and every `consume(tokens)` call with `1 ≤ tokens ≤ capacity` whose
computed `availableNow` is strictly less than `tokens`, the call performs no
storage save (leaving the persisted state unchanged, rather than persisting
`(0, now)`), and returns a rejected `RateLimit` with
`remaining = availableNow` and
`retryAt = now + ceil((tokens - availableNow) * intervalInSeconds / amount)`. -/
theorem tokenBucket_consume_reject_no_save
    (cfg : TBConfig) (stored : Option TokenBucket) (now tokens : ℚ)
    (hcap : 1 ≤ cfg.burstSize) (hrate : cfg.rate.Valid)
    (h1 : 1 ≤ tokens) (h2 : tokens ≤ cfg.burstSize)
    (h3 : cfg.availableNow stored now < tokens) :
    (cfg.consume stored now tokens).saved = none ∧
    (cfg.consume stored now tokens).rateLimit =
      { availableTokens := cfg.availableNow stored now,
        retryAfter := (now + (⌈(tokens - cfg.availableNow stored now) *
          cfg.rate.intervalInSeconds / cfg.rate.amount⌉ : ℚ)) * 1000,
        accepted := false, limit := cfg.burstSize } := by
  rw [TBConfig.availableNow] at h3
  simp only [TBConfig.consume, TBConfig.availableNow, Rate.calculateTimeForTokens,
    if_neg (not_le.mpr h3)]
  exact ⟨trivial, trivial⟩

/-- Witness for claim C1's amended theorem, at capacity 10, rate 1/s, an
exhausted stored bucket, `now = 0`, `tokens = 1`. -/
theorem tokenBucket_consume_reject_no_save_witness :
    (1 ≤ tbCfgEx.burstSize ∧ tbCfgEx.rate.Valid ∧ 1 ≤ (1 : ℚ) ∧
      (1 : ℚ) ≤ tbCfgEx.burstSize ∧ tbCfgEx.availableNow (some tbBucketEmpty) 0 < 1) ∧
    ((tbCfgEx.consume (some tbBucketEmpty) 0 1).saved = none ∧
      (tbCfgEx.consume (some tbBucketEmpty) 0 1).rateLimit =
        { availableTokens := tbCfgEx.availableNow (some tbBucketEmpty) 0,
          retryAfter := ((0 : ℚ) + (⌈((1 : ℚ) - tbCfgEx.availableNow (some tbBucketEmpty) 0) *
            tbCfgEx.rate.intervalInSeconds / tbCfgEx.rate.amount⌉ : ℚ)) * 1000,
          accepted := false, limit := tbCfgEx.burstSize }) :=
  have havail : tbCfgEx.availableNow (some tbBucketEmpty) 0 < 1 := by
    norm_num [TBConfig.availableNow, TBConfig.getOrCreateBucket, TBConfig.fetchBucket,
      TokenBucket.getAvailableTokens, TokenBucket.getExpirationTime,
      Rate.calculateTimeForTokens, Rate.calculateNewTokensDuringInterval,
      tbCfgEx, tbBucketEmpty, exRate]
  ⟨⟨by norm_num [tbCfgEx], ⟨by norm_num [tbCfgEx, exRate], by norm_num [tbCfgEx, exRate]⟩,
    by norm_num, by norm_num [tbCfgEx], havail⟩,
   tokenBucket_consume_reject_no_save tbCfgEx (some tbBucketEmpty) 0 1
     (by norm_num [tbCfgEx]) ⟨by norm_num [tbCfgEx, exRate], by norm_num [tbCfgEx, exRate]⟩
     (by norm_num) (by norm_num [tbCfgEx]) havail⟩

/-- Claim C2: for every token-bucket limiter and every
`reserve(tokens, maxWait)` call with `1 ≤ tokens ≤ capacity` where
`availableNow < tokens` and the computed wait does not exceed `maxWait`, the
call sets the stored token count to 0, advances the stored last-update time
to `actAt = now + ceil((tokens - availableNow) * intervalInSeconds / amount)`,
persists that state, and returns a `Reservation` whose time-to-act is `actAt`
(stored in epoch milliseconds) with an accepted `RateLimit`. -/
theorem tokenBucket_reserve_precommit
    (cfg : TBConfig) (stored : Option TokenBucket) (now tokens : ℚ) (maxTime : Option ℚ)
    (hcap : 1 ≤ cfg.burstSize) (hrate : cfg.rate.Valid)
    (h1 : 1 ≤ tokens) (h2 : tokens ≤ cfg.burstSize)
    (h3 : cfg.availableNow stored now < tokens)
    (h4 : maxWaitHit maxTime (cfg.reserveWait stored now tokens) = false) :
    (cfg.reserve stored now tokens maxTime).saved =
      some { tokens := 0, burstSize := (cfg.getOrCreateBucket stored now).burstSize,
             timer := now + (⌈(tokens - cfg.availableNow stored now) *
               cfg.rate.intervalInSeconds / cfg.rate.amount⌉ : ℚ),
             rate := (cfg.getOrCreateBucket stored now).rate } ∧
    (cfg.reserve stored now tokens maxTime).result =
      ReserveResult.ok
        { timeToAct := (now + (⌈(tokens - cfg.availableNow stored now) *
            cfg.rate.intervalInSeconds / cfg.rate.amount⌉ : ℚ)) * 1000,
          rateLimit := { availableTokens := 0,
                         retryAfter := (now + (⌈(tokens - cfg.availableNow stored now) *
                           cfg.rate.intervalInSeconds / cfg.rate.amount⌉ : ℚ)) * 1000,
                         accepted := true, limit := cfg.burstSize } } := by
  have h3' := h3
  rw [TBConfig.availableNow] at h3'
  have hnb : ¬ tokens > cfg.burstSize := not_lt.mpr h2
  have h4' : maxWaitHit maxTime
      (cfg.rate.calculateTimeForTokens
        (tokens - (cfg.getOrCreateBucket stored now).getAvailableTokens now)) = false := by
    simp only [TBConfig.reserveWait, TBConfig.availableNow] at h4
    rwa [if_neg (not_le.mpr h3')] at h4
  have hmax : max 0 ((cfg.getOrCreateBucket stored now).getAvailableTokens now - tokens) = 0 :=
    max_eq_left (by linarith)
  simp only [TBConfig.reserve, TBConfig.availableNow, Rate.calculateTimeForTokens,
    if_neg hnb, if_neg (not_le.mpr h3'), finishReserve, Rate.calculateTimeForTokens] at h4' ⊢
  rw [h4'] at *
  simp only [Bool.false_eq_true, if_false, hmax]
  exact ⟨trivial, trivial⟩

/-- Witness for claim C2, at capacity 10, rate 1/s, an exhausted stored
bucket, `now = 0`, `tokens = 5`, no max wait. -/
theorem tokenBucket_reserve_precommit_witness :
    (1 ≤ tbCfgEx.burstSize ∧ tbCfgEx.rate.Valid ∧ 1 ≤ (5 : ℚ) ∧
      (5 : ℚ) ≤ tbCfgEx.burstSize ∧ tbCfgEx.availableNow (some tbBucketEmpty) 0 < 5 ∧
      maxWaitHit none (tbCfgEx.reserveWait (some tbBucketEmpty) 0 5) = false) ∧
    ((tbCfgEx.reserve (some tbBucketEmpty) 0 5 none).saved =
      some { tokens := 0, burstSize := (tbCfgEx.getOrCreateBucket (some tbBucketEmpty) 0).burstSize,
             timer := (0 : ℚ) + (⌈((5 : ℚ) - tbCfgEx.availableNow (some tbBucketEmpty) 0) *
               tbCfgEx.rate.intervalInSeconds / tbCfgEx.rate.amount⌉ : ℚ),
             rate := (tbCfgEx.getOrCreateBucket (some tbBucketEmpty) 0).rate } ∧
    (tbCfgEx.reserve (some tbBucketEmpty) 0 5 none).result =
      ReserveResult.ok
        { timeToAct := ((0 : ℚ) + (⌈((5 : ℚ) - tbCfgEx.availableNow (some tbBucketEmpty) 0) *
            tbCfgEx.rate.intervalInSeconds / tbCfgEx.rate.amount⌉ : ℚ)) * 1000,
          rateLimit := { availableTokens := 0,
                         retryAfter := ((0 : ℚ) + (⌈((5 : ℚ) -
                           tbCfgEx.availableNow (some tbBucketEmpty) 0) *
                           tbCfgEx.rate.intervalInSeconds / tbCfgEx.rate.amount⌉ : ℚ)) * 1000,
                         accepted := true, limit := tbCfgEx.burstSize } }) :=
  have havail : tbCfgEx.availableNow (some tbBucketEmpty) 0 < 5 := by
    norm_num [TBConfig.availableNow, TBConfig.getOrCreateBucket, TBConfig.fetchBucket,
      TokenBucket.getAvailableTokens, TokenBucket.getExpirationTime,
      Rate.calculateTimeForTokens, Rate.calculateNewTokensDuringInterval,
      tbCfgEx, tbBucketEmpty, exRate]
  ⟨⟨by norm_num [tbCfgEx], ⟨by norm_num [tbCfgEx, exRate], by norm_num [tbCfgEx, exRate]⟩,
    by norm_num, by norm_num [tbCfgEx], havail, rfl⟩,
   tokenBucket_reserve_precommit tbCfgEx (some tbBucketEmpty) 0 5 none
     (by norm_num [tbCfgEx]) ⟨by norm_num [tbCfgEx, exRate], by norm_num [tbCfgEx, exRate]⟩
     (by norm_num) (by norm_num [tbCfgEx]) havail rfl⟩

/-- Claim C9: for a fixed-window limiter with limit 5 and a 10-second
interval starting from a fresh key at `t = 0`, five `consume(1)` calls at
`t = 0` are accepted with remaining 4, 3, 2, 1, 0; a sixth at `t = 0` is
rejected with `retryAt` at the window boundary `t = 10`; and a `consume(1)`
at `t = 10` is accepted with remaining 4.  (`retryAfter` is in epoch
milliseconds, so the boundary reads `10 * 1000`.) -/
theorem fixedWindow_scenario :
    (fwCfgEx.runConsumes none fwCallsEx).2 =
      [{ availableTokens := 4, retryAfter := 0, accepted := true, limit := 5 },
       { availableTokens := 3, retryAfter := 0, accepted := true, limit := 5 },
       { availableTokens := 2, retryAfter := 0, accepted := true, limit := 5 },
       { availableTokens := 1, retryAfter := 0, accepted := true, limit := 5 },
       { availableTokens := 0, retryAfter := 0, accepted := true, limit := 5 },
       { availableTokens := 0, retryAfter := 10 * 1000, accepted := false, limit := 5 },
       { availableTokens := 4, retryAfter := 10 * 1000, accepted := true, limit := 5 }] := by
  norm_num [FWConfig.runConsumes, FWConfig.consume, FWConfig.afterSave,
    FWConfig.getOrCreateWindow, FWConfig.fetchWindow, Window.getAvailableTokens,
    Window.getExpirationTime, Window.add, Window.calculateTimeForTokens,
    fwCfgEx, fwCallsEx]

/-- Claim C10: for every token-bucket limiter and every `consume(tokens)`
call with `tokens > capacity`, `consume` does not raise a configuration
error: it returns (normally) a rejected `RateLimit` with remaining equal to
the current available count and the finite
`retryAt = now + ceil((tokens - available) * intervalInSeconds / amount)`,
and performs no save — whereas `reserve` with the same arguments throws its
burst-size `Error` without saving. -/
theorem tokenBucket_consume_over_capacity
    (cfg : TBConfig) (stored : Option TokenBucket) (now tokens : ℚ) (maxTime : Option ℚ)
    (hcap : 1 ≤ cfg.burstSize) (hrate : cfg.rate.Valid)
    (hinv : cfg.StoredInv stored) (hover : cfg.burstSize < tokens) :
    (cfg.consume stored now tokens).rateLimit =
      { availableTokens := cfg.availableNow stored now,
        retryAfter := (now + (⌈(tokens - cfg.availableNow stored now) *
          cfg.rate.intervalInSeconds / cfg.rate.amount⌉ : ℚ)) * 1000,
        accepted := false, limit := cfg.burstSize } ∧
    (cfg.consume stored now tokens).saved = none ∧
    (cfg.reserve stored now tokens maxTime).result = ReserveResult.burstError ∧
    (cfg.reserve stored now tokens maxTime).saved = none := by
  have h3 : cfg.availableNow stored now < tokens :=
    lt_of_le_of_lt (cfg.availableNow_le stored now hinv) hover
  rw [TBConfig.availableNow] at h3
  refine ⟨?_, ?_, ?_, ?_⟩
  · simp only [TBConfig.consume, TBConfig.availableNow, Rate.calculateTimeForTokens,
      if_neg (not_le.mpr h3)]
  · simp only [TBConfig.consume, if_neg (not_le.mpr h3)]
  · simp only [TBConfig.reserve, if_pos hover]
  · simp only [TBConfig.reserve, if_pos hover]

/-- Witness for claim C10, at capacity 10, rate 1/s, a fresh key, `now = 0`,
`tokens = 15`. -/
theorem tokenBucket_consume_over_capacity_witness :
    (1 ≤ tbCfgEx.burstSize ∧ tbCfgEx.rate.Valid ∧ tbCfgEx.StoredInv none ∧
      tbCfgEx.burstSize < (15 : ℚ)) ∧
    ((tbCfgEx.consume none 0 15).rateLimit =
      { availableTokens := tbCfgEx.availableNow none 0,
        retryAfter := ((0 : ℚ) + (⌈((15 : ℚ) - tbCfgEx.availableNow none 0) *
          tbCfgEx.rate.intervalInSeconds / tbCfgEx.rate.amount⌉ : ℚ)) * 1000,
        accepted := false, limit := tbCfgEx.burstSize } ∧
    (tbCfgEx.consume none 0 15).saved = none ∧
    (tbCfgEx.reserve none 0 15 none).result = ReserveResult.burstError ∧
    (tbCfgEx.reserve none 0 15 none).saved = none) :=
  ⟨⟨by norm_num [tbCfgEx], ⟨by norm_num [tbCfgEx, exRate], by norm_num [tbCfgEx, exRate]⟩,
    trivial, by norm_num [tbCfgEx]⟩,
   tokenBucket_consume_over_capacity tbCfgEx none 0 15 none
     (by norm_num [tbCfgEx]) ⟨by norm_num [tbCfgEx, exRate], by norm_num [tbCfgEx, exRate]⟩
     trivial (by norm_num [tbCfgEx])⟩

/-- Claim C6: for every compound limiter and all arguments
`(tokens, maxWait)`, `reserve` raises `ReserveNotSupported` and performs no
storage operation on any underlying engine — every engine's state is
returned unchanged. -/
theorem compound_reserve_not_supported {α : Type}
    (limiters : List ((ℚ → α → RateLimit × α) × α)) (tokens : ℚ) (maxTime : Option ℚ) :
    (CompoundLimiter.reserve limiters tokens maxTime).1 = ReserveResult.reserveNotSupported ∧
    (CompoundLimiter.reserve limiters tokens maxTime).2 = limiters.map Prod.snd :=
  ⟨rfl, rfl⟩

/-- Claim C5: for every compound limiter and every `consume(tokens)` call,
`consume(tokens)` is invoked on every underlying engine, so each engine's
persisted state after the call is exactly the state a standalone
`consume(tokens)` on that engine would leave, even when the combined result
is a rejection — no engine is rolled back. -/
theorem compound_consume_updates_every_engine {α : Type}
    (limiters : List ((ℚ → α → RateLimit × α) × α)) (tokens : ℚ) :
    (CompoundLimiter.consume limiters tokens).2 =
      (limiters.map fun p => (p.1 tokens p.2).2) ∧
    ∀ (i : ℕ) (hi : i < limiters.length),
      ((CompoundLimiter.consume limiters tokens).2).get
          ⟨i, by simpa [CompoundLimiter.consume] using hi⟩ =
        ((limiters.get ⟨i, hi⟩).1 tokens (limiters.get ⟨i, hi⟩).2).2 := by
  refine ⟨rfl, ?_⟩
  intro i hi
  simp [CompoundLimiter.consume, List.get_map]

/-- Claim C8: for every sliding-window state and query time
`t < currentWindowEndAt`, the effective hit count is
`floor(previousWindowHits * (1 - elapsedFractionOfCurrentWindow) +
currentHits)`; in particular at elapsed fraction 0 with `currentHits = 0`
(and an integral previous count) it equals `previousWindowHits`, and at any
`t ≥ currentWindowEndAt` it is `currentHits` alone. -/
theorem slidingWindow_hit_count_weighted (w : SlidingWindow) (p : ℤ)
    (hint : 0 < w.intervalInSeconds) (hprev : w.hitCountForLastWindow = (p : ℚ)) :
    (∀ now : ℚ, now < w.windowEndAt →
      w.getHitCount now =
        (⌊w.hitCountForLastWindow *
            (1 - (now - (w.windowEndAt - w.intervalInSeconds)) / w.intervalInSeconds) +
          w.hitCount⌋ : ℚ)) ∧
    (w.hitCount = 0 →
      w.getHitCount (w.windowEndAt - w.intervalInSeconds) = w.hitCountForLastWindow) ∧
    (∀ now : ℚ, w.windowEndAt ≤ now → w.getHitCount now = w.hitCount) := by
  refine ⟨?_, ?_, ?_⟩
  · intro now hnow
    rw [SlidingWindow.getHitCount, if_neg (not_le.mpr hnow)]
  · intro hzero
    have hlt : w.windowEndAt - w.intervalInSeconds < w.windowEndAt := by linarith
    rw [SlidingWindow.getHitCount, if_neg (not_le.mpr hlt)]
    simp only [hzero, hprev, sub_self, zero_div, sub_zero, mul_one, add_zero]
    exact_mod_cast Int.floor_intCast (α := ℚ) p
  · intro now hnow
    rw [SlidingWindow.getHitCount, if_pos hnow]

/-- Witness for claim C8, on a window with 3 previous-window hits, none in
the current window, a 10-second interval and window end at `t = 10`. -/
theorem slidingWindow_hit_count_weighted_witness :
    ((0 : ℚ) < swWindowPrev.intervalInSeconds ∧
      swWindowPrev.hitCountForLastWindow = ((3 : ℤ) : ℚ)) ∧
    ((∀ now : ℚ, now < swWindowPrev.windowEndAt →
      swWindowPrev.getHitCount now =
        (⌊swWindowPrev.hitCountForLastWindow *
            (1 - (now - (swWindowPrev.windowEndAt - swWindowPrev.intervalInSeconds)) /
              swWindowPrev.intervalInSeconds) +
          swWindowPrev.hitCount⌋ : ℚ)) ∧
    (swWindowPrev.hitCount = 0 →
      swWindowPrev.getHitCount (swWindowPrev.windowEndAt - swWindowPrev.intervalInSeconds) =
        swWindowPrev.hitCountForLastWindow) ∧
    (∀ now : ℚ, swWindowPrev.windowEndAt ≤ now →
      swWindowPrev.getHitCount now = swWindowPrev.hitCount)) :=
  ⟨⟨by norm_num [swWindowPrev], by norm_num [swWindowPrev]⟩,
   slidingWindow_hit_count_weighted swWindowPrev 3
     (by norm_num [swWindowPrev]) (by norm_num [swWindowPrev])⟩

lemma finishReserve_maxWait_iff {σ : Type} (limit now avail tokens wait act mt : ℚ) (st : σ) :
    ((finishReserve limit now avail tokens wait act st (some mt)).1 =
      ReserveResult.maxWaitError { availableTokens := avail,
                                   retryAfter := (now + wait) * 1000,
                                   accepted := false, limit := limit })
    ↔ wait > mt := by
  unfold finishReserve maxWaitHit
  by_cases h : wait > mt
  · simp [h]
  · simp [h]

lemma tb_reserve_maxWait_iff (cfg : TBConfig) (stored : Option TokenBucket) (now tokens mt : ℚ)
    (h2 : tokens ≤ cfg.burstSize) :
    ((cfg.reserve stored now tokens (some mt)).result =
      ReserveResult.maxWaitError { availableTokens := cfg.availableNow stored now,
                                   retryAfter := (now + cfg.reserveWait stored now tokens) * 1000,
                                   accepted := false, limit := cfg.burstSize })
    ↔ cfg.reserveWait stored now tokens > mt := by
  have hnb : ¬ tokens > cfg.burstSize := not_lt.mpr h2
  simp only [TBConfig.reserve, TBConfig.reserveWait, TBConfig.availableNow, if_neg hnb]
  by_cases hav : (cfg.getOrCreateBucket stored now).getAvailableTokens now ≥ tokens
  · rw [if_pos hav, if_pos hav]
    exact finishReserve_maxWait_iff _ _ _ _ _ _ _ _
  · rw [if_neg hav, if_neg hav]
    exact finishReserve_maxWait_iff _ _ _ _ _ _ _ _

lemma fw_reserve_maxWait_iff (cfg : FWConfig) (stored : Option Window) (now tokens mt : ℚ)
    (h2 : tokens ≤ cfg.limit) :
    ((cfg.reserve stored now tokens (some mt)).result =
      ReserveResult.maxWaitError
        { availableTokens := (cfg.getOrCreateWindow stored now).getAvailableTokens now,
          retryAfter := (now + cfg.reserveWait stored now tokens) * 1000,
          accepted := false, limit := cfg.limit })
    ↔ cfg.reserveWait stored now tokens > mt := by
  have hnb : ¬ tokens > cfg.limit := not_lt.mpr h2
  simp only [FWConfig.reserve, FWConfig.reserveWait, if_neg hnb]
  by_cases hav : (cfg.getOrCreateWindow stored now).getAvailableTokens now ≥ tokens
  · rw [if_pos hav, if_pos hav]
    exact finishReserve_maxWait_iff _ _ _ _ _ _ _ _
  · rw [if_neg hav, if_neg hav]
    exact finishReserve_maxWait_iff _ _ _ _ _ _ _ _

lemma sw_reserve_maxWait_iff (cfg : SWConfig) (stored : Option SlidingWindow)
    (now tokens mt : ℚ) (h2 : tokens ≤ cfg.limit) :
    ((cfg.reserve stored now tokens (some mt)).result =
      ReserveResult.maxWaitError
        { availableTokens := cfg.availableNow stored now,
          retryAfter := (now + cfg.reserveWait stored now tokens) * 1000,
          accepted := false, limit := cfg.limit })
    ↔ cfg.reserveWait stored now tokens > mt := by
  have hnb : ¬ tokens > cfg.limit := not_lt.mpr h2
  simp only [SWConfig.reserve, SWConfig.reserveWait, SWConfig.availableNow, if_neg hnb]
  by_cases hav : max 0 (cfg.limit - (cfg.updatedWindow stored now).getHitCount now) ≥ tokens
  · rw [if_pos hav, if_pos hav]
    exact finishReserve_maxWait_iff _ _ _ _ _ _ _ _
  · rw [if_neg hav, if_neg hav]
    exact finishReserve_maxWait_iff _ _ _ _ _ _ _ _

/-- Claim C7: for each of the three algorithm engines (token bucket, fixed
window, sliding window), `reserve(tokens, maxWait)` with
`1 ≤ tokens ≤ limit` and non-null `maxWait` raises `MaxWaitExceeded` if and
only if the computed required wait exceeds `maxWait`, and the raised error
carries a rejected `RateLimit` whose remaining is the available count at
decision time and whose `retryAt` is `now +` the computed wait. -/
theorem engines_reserve_max_wait_exceeded_iff
    (cfgT : TBConfig) (storedT : Option TokenBucket) (nowT tokensT mtT : ℚ)
    (cfgF : FWConfig) (storedF : Option Window) (nowF tokensF mtF : ℚ)
    (cfgS : SWConfig) (storedS : Option SlidingWindow) (nowS tokensS mtS : ℚ)
    (hT1 : 1 ≤ tokensT) (hT2 : tokensT ≤ cfgT.burstSize)
    (hF1 : 1 ≤ tokensF) (hF2 : tokensF ≤ cfgF.limit)
    (hS1 : 1 ≤ tokensS) (hS2 : tokensS ≤ cfgS.limit) :
    (((cfgT.reserve storedT nowT tokensT (some mtT)).result =
      ReserveResult.maxWaitError { availableTokens := cfgT.availableNow storedT nowT,
                                   retryAfter :=
                                     (nowT + cfgT.reserveWait storedT nowT tokensT) * 1000,
                                   accepted := false, limit := cfgT.burstSize })
      ↔ cfgT.reserveWait storedT nowT tokensT > mtT) ∧
    (((cfgF.reserve storedF nowF tokensF (some mtF)).result =
      ReserveResult.maxWaitError { availableTokens :=
                                     (cfgF.getOrCreateWindow storedF nowF).getAvailableTokens nowF,
                                   retryAfter :=
                                     (nowF + cfgF.reserveWait storedF nowF tokensF) * 1000,
                                   accepted := false, limit := cfgF.limit })
      ↔ cfgF.reserveWait storedF nowF tokensF > mtF) ∧
    (((cfgS.reserve storedS nowS tokensS (some mtS)).result =
      ReserveResult.maxWaitError { availableTokens := cfgS.availableNow storedS nowS,
                                   retryAfter :=
                                     (nowS + cfgS.reserveWait storedS nowS tokensS) * 1000,
                                   accepted := false, limit := cfgS.limit })
      ↔ cfgS.reserveWait storedS nowS tokensS > mtS) :=
  ⟨tb_reserve_maxWait_iff cfgT storedT nowT tokensT mtT hT2,
   fw_reserve_maxWait_iff cfgF storedF nowF tokensF mtF hF2,
   sw_reserve_maxWait_iff cfgS storedS nowS tokensS mtS hS2⟩

/-- Witness for claim C7: an exhausted token bucket reserving 5 tokens, a
full fixed window and a full sliding window each reserving 1 token, all with
a max wait of 1 second. -/
theorem engines_reserve_max_wait_exceeded_iff_witness :
    (1 ≤ (5 : ℚ) ∧ (5 : ℚ) ≤ tbCfgEx.burstSize ∧
      1 ≤ (1 : ℚ) ∧ (1 : ℚ) ≤ fwCfgEx.limit ∧
      1 ≤ (1 : ℚ) ∧ (1 : ℚ) ≤ swCfgEx.limit) ∧
    ((((tbCfgEx.reserve (some tbBucketEmpty) 0 5 (some 1)).result =
      ReserveResult.maxWaitError { availableTokens := tbCfgEx.availableNow (some tbBucketEmpty) 0,
                                   retryAfter :=
                                     ((0 : ℚ) +
                                       tbCfgEx.reserveWait (some tbBucketEmpty) 0 5) * 1000,
                                   accepted := false, limit := tbCfgEx.burstSize })
      ↔ tbCfgEx.reserveWait (some tbBucketEmpty) 0 5 > 1) ∧
    (((fwCfgEx.reserve (some fwWindowFull) 0 1 (some 1)).result =
      ReserveResult.maxWaitError { availableTokens :=
                                     (fwCfgEx.getOrCreateWindow
                                       (some fwWindowFull) 0).getAvailableTokens 0,
                                   retryAfter :=
                                     ((0 : ℚ) +
                                       fwCfgEx.reserveWait (some fwWindowFull) 0 1) * 1000,
                                   accepted := false, limit := fwCfgEx.limit })
      ↔ fwCfgEx.reserveWait (some fwWindowFull) 0 1 > 1) ∧
    (((swCfgEx.reserve (some swWindowFull) 0 1 (some 1)).result =
      ReserveResult.maxWaitError { availableTokens := swCfgEx.availableNow (some swWindowFull) 0,
                                   retryAfter :=
                                     ((0 : ℚ) +
                                       swCfgEx.reserveWait (some swWindowFull) 0 1) * 1000,
                                   accepted := false, limit := swCfgEx.limit })
      ↔ swCfgEx.reserveWait (some swWindowFull) 0 1 > 1)) :=
  ⟨⟨by norm_num, by norm_num [tbCfgEx], by norm_num, by norm_num [fwCfgEx],
    by norm_num, by norm_num [swCfgEx]⟩,
   engines_reserve_max_wait_exceeded_iff tbCfgEx (some tbBucketEmpty) 0 5 1
     fwCfgEx (some fwWindowFull) 0 1 1 swCfgEx (some swWindowFull) 0 1 1
     (by norm_num) (by norm_num [tbCfgEx]) (by norm_num) (by norm_num [fwCfgEx])
     (by norm_num) (by norm_num [swCfgEx])⟩

lemma mostRestrictiveStep_eq_or (a b : RateLimit) :
    mostRestrictiveStep a b = a ∨ mostRestrictiveStep a b = b := by
  unfold mostRestrictiveStep
  split_ifs
  · exact Or.inr rfl
  · exact Or.inl rfl

lemma mostRestrictiveStep_rejected_left (a b : RateLimit) (h : a.accepted = false) :
    (mostRestrictiveStep a b).accepted = false ∧
    a.retryAfter ≤ (mostRestrictiveStep a b).retryAfter := by
  unfold mostRestrictiveStep
  split_ifs with hc
  · rcases hc with ⟨hb, ha⟩ | ⟨hb, _, hr⟩ | ⟨_, ha, _⟩
    · rw [h] at ha; exact absurd ha (by simp)
    · exact ⟨hb, le_of_lt hr⟩
    · rw [h] at ha; exact absurd ha (by simp)
  · exact ⟨h, le_refl _⟩

lemma mostRestrictiveStep_rejected_right (a b : RateLimit) (h : b.accepted = false) :
    (mostRestrictiveStep a b).accepted = false ∧
    b.retryAfter ≤ (mostRestrictiveStep a b).retryAfter := by
  unfold mostRestrictiveStep
  split_ifs with hc
  · rcases hc with ⟨hb, _⟩ | ⟨hb, _, _⟩ | ⟨hb, _, _⟩
    · exact ⟨hb, le_refl _⟩
    · exact ⟨hb, le_refl _⟩
    · rw [h] at hb; exact absurd hb (by simp)
  · push_neg at hc
    rcases hc with ⟨hc1, hc2, _⟩
    cases ha : a.accepted with
    | false => exact ⟨rfl, hc2 h ha⟩
    | true => exact absurd ha (hc1 h)

lemma mostRestrictiveStep_accepted (a b : RateLimit)
    (ha : a.accepted = true) (hb : b.accepted = true) :
    (mostRestrictiveStep a b).accepted = true ∧
    (mostRestrictiveStep a b).availableTokens ≤ a.availableTokens ∧
    (mostRestrictiveStep a b).availableTokens ≤ b.availableTokens := by
  unfold mostRestrictiveStep
  split_ifs with hc
  · rcases hc with ⟨hb', _⟩ | ⟨hb', _, _⟩ | ⟨_, _, hlt⟩
    · rw [hb] at hb'; exact absurd hb' (by simp)
    · rw [hb] at hb'; exact absurd hb' (by simp)
    · exact ⟨hb, le_of_lt hlt, le_refl _⟩
  · push_neg at hc
    rcases hc with ⟨_, _, hc3⟩
    exact ⟨ha, le_refl _, hc3 hb ha⟩

lemma foldl_mostRestrictive_mem :
    ∀ (l : List RateLimit) (most : RateLimit),
      l.foldl mostRestrictiveStep most ∈ most :: l := by
  intro l
  induction l with
  | nil => intro most; simp
  | cons x xs ih =>
    intro most
    have h := ih (mostRestrictiveStep most x)
    rw [List.foldl_cons]
    rcases List.mem_cons.mp h with he | he
    · rcases mostRestrictiveStep_eq_or most x with hs | hs <;> rw [he, hs] <;> simp
    · exact List.mem_cons_of_mem _ (List.mem_cons_of_mem _ he)

lemma foldl_mostRestrictive_rejected :
    ∀ (l : List RateLimit) (most : RateLimit),
      (∃ r ∈ most :: l, r.accepted = false) →
      (l.foldl mostRestrictiveStep most).accepted = false ∧
      ∀ r ∈ most :: l, r.accepted = false →
        r.retryAfter ≤ (l.foldl mostRestrictiveStep most).retryAfter := by
  intro l
  induction l with
  | nil =>
    intro most hex
    rcases hex with ⟨r, hr, hrej⟩
    simp only [List.mem_singleton] at hr
    subst hr
    refine ⟨hrej, ?_⟩
    intro r hr _
    simp only [List.mem_singleton] at hr
    subst hr
    exact le_refl _
  | cons x xs ih =>
    intro most hex
    rw [List.foldl_cons]
    have hex' : ∃ r ∈ mostRestrictiveStep most x :: xs, r.accepted = false := by
      rcases hex with ⟨r, hr, hrej⟩
      rcases List.mem_cons.mp hr with he | hr2
      · rw [he] at hrej
        exact ⟨mostRestrictiveStep most x, List.mem_cons_self _ _,
          (mostRestrictiveStep_rejected_left most x hrej).1⟩
      · rcases List.mem_cons.mp hr2 with he | hr3
        · rw [he] at hrej
          exact ⟨mostRestrictiveStep most x, List.mem_cons_self _ _,
            (mostRestrictiveStep_rejected_right most x hrej).1⟩
        · exact ⟨r, List.mem_cons_of_mem _ hr3, hrej⟩
    obtain ⟨hrej, hbound⟩ := ih (mostRestrictiveStep most x) hex'
    refine ⟨hrej, ?_⟩
    intro r hr hrrej
    rcases List.mem_cons.mp hr with he | hr2
    · rw [he] at hrrej ⊢
      obtain ⟨hm, hle⟩ := mostRestrictiveStep_rejected_left most x hrrej
      exact le_trans hle (hbound _ (List.mem_cons_self _ _) hm)
    · rcases List.mem_cons.mp hr2 with he | hr3
      · rw [he] at hrrej ⊢
        obtain ⟨hm, hle⟩ := mostRestrictiveStep_rejected_right most x hrrej
        exact le_trans hle (hbound _ (List.mem_cons_self _ _) hm)
      · exact hbound r (List.mem_cons_of_mem _ hr3) hrrej

lemma foldl_mostRestrictive_accepted :
    ∀ (l : List RateLimit) (most : RateLimit),
      (∀ r ∈ most :: l, r.accepted = true) →
      (l.foldl mostRestrictiveStep most).accepted = true ∧
      ∀ r ∈ most :: l,
        (l.foldl mostRestrictiveStep most).availableTokens ≤ r.availableTokens := by
  intro l
  induction l with
  | nil =>
    intro most hall
    refine ⟨hall most (List.mem_cons_self _ _), ?_⟩
    intro r hr
    simp only [List.mem_singleton] at hr
    subst hr
    exact le_refl _
  | cons x xs ih =>
    intro most hall
    rw [List.foldl_cons]
    have hmost := hall most (List.mem_cons_self _ _)
    have hx := hall x (List.mem_cons_of_mem _ (List.mem_cons_self _ _))
    obtain ⟨hacc, hlm, hlx⟩ := mostRestrictiveStep_accepted most x hmost hx
    have hall' : ∀ r ∈ mostRestrictiveStep most x :: xs, r.accepted = true := by
      intro r hr
      rcases List.mem_cons.mp hr with he | hr2
      · subst he; exact hacc
      · exact hall r (List.mem_cons_of_mem _ (List.mem_cons_of_mem _ hr2))
    obtain ⟨hacc', hbound⟩ := ih (mostRestrictiveStep most x) hall'
    refine ⟨hacc', ?_⟩
    intro r hr
    have hhead := hbound (mostRestrictiveStep most x) (List.mem_cons_self _ _)
    rcases List.mem_cons.mp hr with he | hr2
    · rw [he]
      exact le_trans hhead hlm
    · rcases List.mem_cons.mp hr2 with he | hr3
      · rw [he]
        exact le_trans hhead hlx
      · exact hbound r (List.mem_cons_of_mem _ hr3)

/-- Claim C4: for every compound limiter over a non-empty engine list and
every `consume(tokens)` call, the reduced outcome is one of the underlying
outcomes; if at least one underlying outcome is rejected, the combined
`RateLimit` is rejected and its `retryAfter` is the largest among the
rejected outcomes; if all are accepted, the combined `RateLimit` is accepted
and its remaining is the smallest among all outcomes. -/
theorem compound_consume_most_restrictive {α : Type}
    (limiters : List ((ℚ → α → RateLimit × α) × α)) (tokens : ℚ)
    (hne : limiters ≠ []) :
    ∃ out, (CompoundLimiter.consume limiters tokens).1 = some out ∧
      out ∈ CompoundLimiter.results limiters tokens ∧
      ((∃ r ∈ CompoundLimiter.results limiters tokens, r.accepted = false) →
        out.accepted = false ∧
        ∀ r ∈ CompoundLimiter.results limiters tokens, r.accepted = false →
          r.retryAfter ≤ out.retryAfter) ∧
      ((∀ r ∈ CompoundLimiter.results limiters tokens, r.accepted = true) →
        out.accepted = true ∧
        ∀ r ∈ CompoundLimiter.results limiters tokens,
          out.availableTokens ≤ r.availableTokens) := by
  cases limiters with
  | nil => exact absurd rfl hne
  | cons p ps =>
    refine ⟨_, rfl, ?_, ?_, ?_⟩
    · exact foldl_mostRestrictive_mem _ _
    · exact foldl_mostRestrictive_rejected _ _
    · exact foldl_mostRestrictive_accepted _ _

/-- Witness for claim C4, on the two-engine compound limiter with remaining
5 and 20. -/
theorem compound_consume_most_restrictive_witness :
    compoundLimitersEx ≠ [] ∧
    (∃ out, (CompoundLimiter.consume compoundLimitersEx 1).1 = some out ∧
      out ∈ CompoundLimiter.results compoundLimitersEx 1 ∧
      ((∃ r ∈ CompoundLimiter.results compoundLimitersEx 1, r.accepted = false) →
        out.accepted = false ∧
        ∀ r ∈ CompoundLimiter.results compoundLimitersEx 1, r.accepted = false →
          r.retryAfter ≤ out.retryAfter) ∧
      ((∀ r ∈ CompoundLimiter.results compoundLimitersEx 1, r.accepted = true) →
        out.accepted = true ∧
        ∀ r ∈ CompoundLimiter.results compoundLimitersEx 1,
          out.availableTokens ≤ r.availableTokens)) :=
  ⟨List.cons_ne_nil _ _,
   compound_consume_most_restrictive compoundLimitersEx 1 (List.cons_ne_nil _ _)⟩

lemma TBConfig.fetchBucket_inv (cfg : TBConfig) (stored : Option TokenBucket) (now : ℚ)
    (hinv : cfg.StoredInv stored) :
    cfg.StoredInv (TBConfig.fetchBucket stored now) := by
  cases stored with
  | none => exact trivial
  | some b =>
    simp only [TBConfig.fetchBucket]
    split_ifs <;> simp_all [TBConfig.StoredInv]

lemma finishReserve_outcomes_le {σ : Type}
    (limit now avail tokens wait act : ℚ) (st : σ) (maxTime : Option ℚ)
    (h1 : avail ≤ limit) (h2 : 0 ≤ limit) (h3 : 0 ≤ tokens) :
    ∀ rl ∈ reserveOutcomes (finishReserve limit now avail tokens wait act st maxTime).1,
      rl.availableTokens ≤ limit := by
  unfold finishReserve
  split_ifs with h
  · intro rl hrl
    simp only [reserveOutcomes, List.mem_singleton] at hrl
    rw [hrl]
    exact h1
  · intro rl hrl
    simp only [reserveOutcomes, List.mem_singleton] at hrl
    rw [hrl]
    exact max_le h2 (by linarith)

lemma finishReserve_saved {σ : Type}
    (limit now avail tokens wait act : ℚ) (st : σ) (maxTime : Option ℚ) :
    (finishReserve limit now avail tokens wait act st maxTime).2 = none ∨
    (finishReserve limit now avail tokens wait act st maxTime).2 = some st := by
  unfold finishReserve
  split_ifs
  · exact Or.inl rfl
  · exact Or.inr rfl

lemma TBConfig.step_bounds (cfg : TBConfig) (stored : Option TokenBucket) (op : TBOp)
    (hcap : 1 ≤ cfg.burstSize) (hop : op.Valid) (hinv : cfg.StoredInv stored) :
    (∀ rl ∈ (cfg.step stored op).2, rl.availableTokens ≤ cfg.burstSize) ∧
    cfg.StoredInv (cfg.step stored op).1 := by
  cases op with
  | resetOp => exact ⟨by intro rl hrl; exact absurd hrl (List.not_mem_nil _), trivial⟩
  | consumeOp now tokens =>
    have hop' : 1 ≤ tokens := hop
    have hbur := cfg.getOrCreateBucket_burstSize stored now hinv
    have havail := cfg.availableNow_le stored now hinv
    rw [TBConfig.availableNow] at havail
    by_cases hge : (cfg.getOrCreateBucket stored now).getAvailableTokens now ≥ tokens
    · constructor
      · intro rl hrl
        simp only [TBConfig.step, TBConfig.consume, if_pos hge, List.mem_singleton] at hrl
        rw [hrl]
        simp only []
        linarith
      · simp only [TBConfig.step, TBConfig.consume, if_pos hge, TBConfig.afterSave]
        simpa [TBConfig.StoredInv] using hbur
    · constructor
      · intro rl hrl
        simp only [TBConfig.step, TBConfig.consume, if_neg hge, List.mem_singleton] at hrl
        rw [hrl]
        exact havail
      · simp only [TBConfig.step, TBConfig.consume, if_neg hge, TBConfig.afterSave]
        exact cfg.fetchBucket_inv stored now hinv
  | reserveOp now tokens maxTime =>
    have hop' : 1 ≤ tokens := hop
    have hbur := cfg.getOrCreateBucket_burstSize stored now hinv
    have havail := cfg.availableNow_le stored now hinv
    rw [TBConfig.availableNow] at havail
    by_cases hbig : tokens > cfg.burstSize
    · constructor
      · intro rl hrl
        simp only [TBConfig.step, TBConfig.reserve, if_pos hbig, reserveOutcomes] at hrl
        exact absurd hrl (List.not_mem_nil _)
      · simp only [TBConfig.step, TBConfig.reserve, if_pos hbig, TBConfig.afterSave]
        exact cfg.fetchBucket_inv stored now hinv
    · by_cases hge : (cfg.getOrCreateBucket stored now).getAvailableTokens now ≥ tokens
      · constructor
        · intro rl hrl
          simp only [TBConfig.step, TBConfig.reserve, if_neg hbig, if_pos hge] at hrl
          exact finishReserve_outcomes_le cfg.burstSize now _ tokens 0 now _ maxTime
            havail (by linarith) (by linarith) rl hrl
        · simp only [TBConfig.step, TBConfig.reserve, if_neg hbig, if_pos hge,
            TBConfig.afterSave]
          rcases finishReserve_saved cfg.burstSize now _ tokens 0 now
            { cfg.getOrCreateBucket stored now with
                tokens := (cfg.getOrCreateBucket stored now).getAvailableTokens now - tokens,
                timer := now } maxTime with hs | hs <;> rw [hs]
          · exact cfg.fetchBucket_inv stored now hinv
          · simpa [TBConfig.StoredInv] using hbur
      · constructor
        · intro rl hrl
          simp only [TBConfig.step, TBConfig.reserve, if_neg hbig, if_neg hge] at hrl
          exact finishReserve_outcomes_le cfg.burstSize now _ tokens _ _ _ maxTime
            havail (by linarith) (by linarith) rl hrl
        · simp only [TBConfig.step, TBConfig.reserve, if_neg hbig, if_neg hge,
            TBConfig.afterSave]
          rcases finishReserve_saved cfg.burstSize now _ tokens
            (cfg.rate.calculateTimeForTokens
              (tokens - (cfg.getOrCreateBucket stored now).getAvailableTokens now))
            (now + cfg.rate.calculateTimeForTokens
              (tokens - (cfg.getOrCreateBucket stored now).getAvailableTokens now))
            { cfg.getOrCreateBucket stored now with
                tokens := 0,
                timer := now + cfg.rate.calculateTimeForTokens
                  (tokens - (cfg.getOrCreateBucket stored now).getAvailableTokens now) }
            maxTime with hs | hs <;> rw [hs]
          · exact cfg.fetchBucket_inv stored now hinv
          · simpa [TBConfig.StoredInv] using hbur

lemma TBConfig.runOps_bounds (cfg : TBConfig) (hcap : 1 ≤ cfg.burstSize) :
    ∀ (ops : List TBOp) (stored : Option TokenBucket),
      cfg.StoredInv stored → (∀ op ∈ ops, op.Valid) →
      ∀ rl ∈ (cfg.runOps stored ops).2, rl.availableTokens ≤ cfg.burstSize := by
  intro ops
  induction ops with
  | nil =>
    intro stored _ _ rl hrl
    exact absurd hrl (List.not_mem_nil _)
  | cons op rest ih =>
    intro stored hinv hops rl hrl
    obtain ⟨hout, hinv'⟩ :=
      cfg.step_bounds stored op hcap (hops op (List.mem_cons_self _ _)) hinv
    rw [TBConfig.runOps, List.mem_append] at hrl
    rcases hrl with h | h
    · exact hout rl h
    · exact ih (cfg.step stored op).1 hinv'
        (fun o ho => hops o (List.mem_cons_of_mem _ ho)) rl h

/-- Claim C3, counterexample: with capacity 10 and rate 1/s, the valid trace
`consume(10); reserve(5); consume(1)`, all at `t = 0` from a fresh key,
produces a `RateLimit` whose remaining is negative (−5): the reserve
pre-commits `timer` five seconds into the future, and the following consume
computes `min(capacity, 0 + floor(-5))` with no lower clamp. -/
theorem tokenBucket_remaining_negative_cex :
    (1 ≤ tbCfgEx.burstSize ∧ tbCfgEx.rate.Valid ∧ ∀ op ∈ tbOpsEx, op.Valid) ∧
    ∃ rl ∈ (tbCfgEx.runOps none tbOpsEx).2, rl.availableTokens < 0 := by
  have hrun : (tbCfgEx.runOps none tbOpsEx).2 =
      [{ availableTokens := 0, retryAfter := 0, accepted := true, limit := 10 },
       { availableTokens := 0, retryAfter := 5000, accepted := true, limit := 10 },
       { availableTokens := -5, retryAfter := 6000, accepted := false, limit := 10 }] := by
    norm_num [TBConfig.runOps, TBConfig.step, TBConfig.consume, TBConfig.reserve,
      TBConfig.afterSave, TBConfig.getOrCreateBucket, TBConfig.fetchBucket,
      TokenBucket.getAvailableTokens, TokenBucket.getExpirationTime,
      Rate.calculateTimeForTokens, Rate.calculateNewTokensDuringInterval,
      finishReserve, maxWaitHit, reserveOutcomes, tbCfgEx, tbOpsEx, exRate]
  refine ⟨⟨by norm_num [tbCfgEx], ⟨by norm_num [tbCfgEx, exRate], by norm_num [tbCfgEx, exRate]⟩,
    ?_⟩, ?_⟩
  · intro op hop
    simp only [tbOpsEx, List.mem_cons, List.mem_singleton] at hop
    rcases hop with h | h | h | h
    · rw [h]; norm_num [TBOp.Valid]
    · rw [h]; norm_num [TBOp.Valid]
    · rw [h]; norm_num [TBOp.Valid]
    · exact absurd h (List.not_mem_nil _)
  · rw [hrun]
    exact ⟨{ availableTokens := -5, retryAfter := 6000, accepted := false, limit := 10 },
      by simp, by norm_num⟩

/-- Claim C3, amended: for every token-bucket limiter (capacity ≥ 1, valid
rate) and every finite trace of `consume`, `reserve` and `reset` operations
starting from a fresh key (each requesting at least one token), every
`RateLimit` produced — returned from `consume`, embedded in a returned
`Reservation`, or carried by a `MaxWaitExceeded` error — has
`remaining ≤ capacity`.  The claimed lower bound `0 ≤ remaining` is false
(see the counterexample). -/
theorem tokenBucket_remaining_le_capacity (cfg : TBConfig) (ops : List TBOp)
    (hcap : 1 ≤ cfg.burstSize) (hrate : cfg.rate.Valid)
    (hops : ∀ op ∈ ops, op.Valid) :
    ∀ rl ∈ (cfg.runOps none ops).2, rl.availableTokens ≤ cfg.burstSize :=
  cfg.runOps_bounds hcap ops none trivial hops

/-- Witness for claim C3's amended theorem, on the
`consume(10); reserve(5); consume(1)` trace at capacity 10. -/
theorem tokenBucket_remaining_le_capacity_witness :
    (1 ≤ tbCfgEx.burstSize ∧ tbCfgEx.rate.Valid ∧ ∀ op ∈ tbOpsEx, op.Valid) ∧
    ∀ rl ∈ (tbCfgEx.runOps none tbOpsEx).2, rl.availableTokens ≤ tbCfgEx.burstSize :=
  have hops : ∀ op ∈ tbOpsEx, op.Valid := by
    intro op hop
    simp only [tbOpsEx, List.mem_cons, List.mem_singleton] at hop
    rcases hop with h | h | h | h
    · rw [h]; norm_num [TBOp.Valid]
    · rw [h]; norm_num [TBOp.Valid]
    · rw [h]; norm_num [TBOp.Valid]
    · exact absurd h (List.not_mem_nil _)
  ⟨⟨by norm_num [tbCfgEx], ⟨by norm_num [tbCfgEx, exRate], by norm_num [tbCfgEx, exRate]⟩, hops⟩,
   tokenBucket_remaining_le_capacity tbCfgEx tbOpsEx (by norm_num [tbCfgEx])
     ⟨by norm_num [tbCfgEx, exRate], by norm_num [tbCfgEx, exRate]⟩ hops⟩
